import Mathlib

/-!
Shallow embedding of the statistics engine and lifecycle defaults of
`device-state-exchange-lib` (src/lib.rs).

The Rust code keeps three `AtomicI64` counters per point (`Statistics`:
`failed_poll_count`, `total_polling_count`, `average_response_ms`).  All claims
under study concern the quiescent (single-caller) behaviour of the update and
aggregation operations, so each operation is embedded as a pure state
transformer on a record of mathematical integers; `i64` arithmetic in the
counted range never overflows for the inputs at issue.  Rust's `/` on `i64`
truncates toward zero, so it is embedded as `Int.tdiv`.  Rust division by zero
panics; the aggregation fold that can divide by zero is therefore embedded as
an `Option`-valued fold, `none` marking the panic.
-/

/-- The `Statistics` struct of src/lib.rs: three independent `i64` counters. -/
structure Statistics where
  failed_poll_count : Int
  total_polling_count : Int
  average_response_ms : Int
deriving DecidableEq, Repr

/-- `Statistics::default()`: all three counters are zero (`#[derive(Default)]`). -/
def Statistics.default : Statistics :=
  { failed_poll_count := 0, total_polling_count := 0, average_response_ms := 0 }

/-- `TargetStats` is a newtype wrapper `TargetStats(Statistics)`; its methods
read and write the wrapped `Statistics` fields directly, so the wrapper is
embedded as the state itself. -/
abbrev TargetStats := Statistics

/-- `TargetStats::record_success(response_ms)` of src/lib.rs lines 493-516:
`fetch_add(1)` on `total_polling_count` returns the *old* total
(`orig_polling_count`); the new average is
`(orig_avg * (orig_total - orig_failed) + response_ms) / (orig_total + 1)`
with `i64` truncating division. -/
def TargetStats.record_success (s : TargetStats) (response_ms : Int) : TargetStats :=
  let orig_polling_count := s.total_polling_count
  let orig_failed_poll_count := s.failed_poll_count
  let orig_response_ms := s.average_response_ms
  let new_response_ms :=
    (orig_response_ms * (orig_polling_count - orig_failed_poll_count)
        + response_ms).tdiv (orig_polling_count + 1)
  { failed_poll_count := orig_failed_poll_count,
    total_polling_count := orig_polling_count + 1,
    average_response_ms := new_response_ms }

/-- `TargetStats::record_failure()` of src/lib.rs lines 519-527: increments
`total_polling_count` and `failed_poll_count`, leaves the average alone. -/
def TargetStats.record_failure (s : TargetStats) : TargetStats :=
  { failed_poll_count := s.failed_poll_count + 1,
    total_polling_count := s.total_polling_count + 1,
    average_response_ms := s.average_response_ms }

/-- `TargetStats::get_latest_value()` of src/lib.rs lines 529-541: the triple
`(failed_poll_count, total_polling_count, average_response_ms)`. -/
def TargetStats.get_latest_value (s : TargetStats) : Int × Int × Int :=
  (s.failed_poll_count, s.total_polling_count, s.average_response_ms)

/-- `TargetStats::clear()` of src/lib.rs lines 543-553: stores `i64::default()`
(zero) into each of the three fields. -/
def TargetStats.clear (_s : TargetStats) : TargetStats :=
  { failed_poll_count := 0, total_polling_count := 0, average_response_ms := 0 }

/-- One step of the fold inside `ConnectionStats::get_all_stats` (src/lib.rs
lines 417-475).  The Rust body first `fetch_add`s the target's failed and total
counts into the accumulator, and only then runs the `fetch_update` closure on
the average; the counts that closure loads from the accumulator therefore
*already include* the current target's counts.  The closure divides by
`current_success_count + next_success_count`; when that is zero the `i64`
division panics, embedded here as `none`. -/
def mergeTarget (accumulator : Statistics) (next_target : TargetStats) : Option Statistics :=
  let failed' := accumulator.failed_poll_count + next_target.failed_poll_count
  let total' := accumulator.total_polling_count + next_target.total_polling_count
  let current_success_count := total' - failed'
  let next_success_count :=
    next_target.total_polling_count - next_target.failed_poll_count
  if current_success_count + next_success_count = 0 then none
  else
    some
      { failed_poll_count := failed',
        total_polling_count := total',
        average_response_ms :=
          (accumulator.average_response_ms * current_success_count
              + next_target.average_response_ms * next_success_count).tdiv
            (current_success_count + next_success_count) }

/-- `ConnectionStats` of src/lib.rs: the registered `TargetStats` handles.  The
Rust field is a `HashMap` whose `values()` iteration order is unspecified; it
is embedded as the list of targets in iteration order (claims quantify over the
order where it matters).  `port_target` and `port_note` carry no logic. -/
structure ConnectionStats where
  targets : List TargetStats

/-- `ConnectionStats::get_all_stats()` of src/lib.rs lines 417-475: fold
`mergeTarget` over the registered targets starting from `Statistics::default()`;
`none` embeds the division-by-zero panic inside the average merge. -/
def ConnectionStats.get_all_stats (c : ConnectionStats) : Option Statistics :=
  c.targets.foldlM mergeTarget Statistics.default

/-- Default body of `Connection::preprocess` (src/lib.rs lines 261-267):
`Ok(request)` regardless of `new_status`.  `Req` stands for the
`Connection::Request` associated type and `Err` for `Box<dyn Error>`. -/
def Connection.preprocess (Req Err : Type) (request : Req)
    (_new_status : Option String) : Except Err Req :=
  Except.ok request

/-- Default body of `Connection::postprocess` (src/lib.rs lines 304-310):
`Ok(response)` regardless of the request.  `Req`/`Res` stand for the
`Connection::Request`/`Connection::Response` associated types. -/
def Connection.postprocess (Req Res Err : Type) (_request : Req)
    (response : Res) : Except Err Res :=
  Except.ok response

/-- A quiescent call on a `TargetStats`: one `record_success` or one
`record_failure`. -/
inductive StatOp where
  | success (response_ms : Int)
  | failure
deriving DecidableEq, Repr

/-- Whether a call is a `record_failure`. -/
def StatOp.isFailure : StatOp → Bool
  | .failure => true
  | .success _ => false

/-- Apply one quiescent call. -/
def TargetStats.applyOp (s : TargetStats) : StatOp → TargetStats
  | .success ms => s.record_success ms
  | .failure => s.record_failure

/-- Apply a finite sequence of quiescent calls, left to right. -/
def TargetStats.applyOps (s : TargetStats) (ops : List StatOp) : TargetStats :=
  ops.foldl TargetStats.applyOp s

/-- A quiescent call drawn from `record_success`, `record_failure`, `clear`. -/
inductive StatOpC where
  | success (response_ms : Int)
  | failure
  | clearOp
deriving DecidableEq, Repr

/-- Apply one call of the extended repertoire. -/
def TargetStats.applyOpC (s : TargetStats) : StatOpC → TargetStats
  | .success ms => s.record_success ms
  | .failure => s.record_failure
  | .clearOp => s.clear

/-- Apply a finite sequence of extended calls, left to right. -/
def TargetStats.applyOpsC (s : TargetStats) (ops : List StatOpC) : TargetStats :=
  ops.foldl TargetStats.applyOpC s

/-- Number of `record_success` calls since the last `clear`, threading a
running count. -/
def successesSinceClear (n : Nat) : List StatOpC → Nat
  | [] => n
  | .success _ :: rest => successesSinceClear (n + 1) rest
  | .failure :: rest => successesSinceClear n rest
  | .clearOp :: rest => successesSinceClear 0 rest

/-! Helper lemmas about the embedded operations. -/

theorem record_success_failed (s : TargetStats) (ms : Int) :
    (TargetStats.record_success s ms).failed_poll_count = s.failed_poll_count := rfl

theorem record_success_total (s : TargetStats) (ms : Int) :
    (TargetStats.record_success s ms).total_polling_count = s.total_polling_count + 1 := rfl

theorem record_success_average (s : TargetStats) (ms : Int) :
    (TargetStats.record_success s ms).average_response_ms =
      (s.average_response_ms * (s.total_polling_count - s.failed_poll_count)
          + ms).tdiv (s.total_polling_count + 1) := rfl

theorem record_failure_eq (s : TargetStats) :
    TargetStats.record_failure s =
      { failed_poll_count := s.failed_poll_count + 1,
        total_polling_count := s.total_polling_count + 1,
        average_response_ms := s.average_response_ms } := rfl

theorem applyOps_nil (s : TargetStats) : TargetStats.applyOps s [] = s := rfl

theorem applyOps_cons (s : TargetStats) (op : StatOp) (ops : List StatOp) :
    TargetStats.applyOps s (op :: ops) =
      TargetStats.applyOps (TargetStats.applyOp s op) ops := rfl

theorem applyOpsC_nil (s : TargetStats) : TargetStats.applyOpsC s [] = s := rfl

theorem applyOpsC_cons (s : TargetStats) (op : StatOpC) (ops : List StatOpC) :
    TargetStats.applyOpsC s (op :: ops) =
      TargetStats.applyOpsC (TargetStats.applyOpC s op) ops := rfl

theorem applyOps_counts (ops : List StatOp) : ∀ s : TargetStats,
    (TargetStats.applyOps s ops).total_polling_count =
        s.total_polling_count + ops.length ∧
      (TargetStats.applyOps s ops).failed_poll_count =
        s.failed_poll_count + ops.countP StatOp.isFailure := by
  induction ops with
  | nil => intro s; simp [applyOps_nil]
  | cons op rest ih =>
    intro s
    rw [applyOps_cons]
    obtain ⟨h1, h2⟩ := ih (TargetStats.applyOp s op)
    cases op with
    | success ms =>
      rw [h1, h2]
      simp [TargetStats.applyOp, record_success_total, record_success_failed,
        List.countP_cons, StatOp.isFailure]
      omega
    | failure =>
      rw [h1, h2]
      simp [TargetStats.applyOp, record_failure_eq, List.countP_cons, StatOp.isFailure]
      omega

theorem applyOpsC_counts (ops : List StatOpC) : ∀ (s : TargetStats) (n : Nat),
    s.total_polling_count = (n : Int) + s.failed_poll_count →
    0 ≤ s.failed_poll_count →
    (TargetStats.applyOpsC s ops).total_polling_count =
        (successesSinceClear n ops : Int) +
          (TargetStats.applyOpsC s ops).failed_poll_count ∧
      0 ≤ (TargetStats.applyOpsC s ops).failed_poll_count := by
  induction ops with
  | nil => intro s n h1 h2; exact ⟨h1, h2⟩
  | cons op rest ih =>
    intro s n h1 h2
    rw [applyOpsC_cons]
    cases op with
    | success ms =>
      refine ih _ (n + 1) ?_ ?_
      · simp only [TargetStats.applyOpC, record_success_total, record_success_failed]
        push_cast
        omega
      · simpa only [TargetStats.applyOpC, record_success_failed] using h2
    | failure =>
      refine ih _ n ?_ ?_
      · simp only [TargetStats.applyOpC, record_failure_eq]
        omega
      · simp only [TargetStats.applyOpC, record_failure_eq]
        omega
    | clearOp =>
      refine ih _ 0 ?_ ?_
      · simp [TargetStats.applyOpC, TargetStats.clear]
      · simp [TargetStats.applyOpC, TargetStats.clear]

theorem mergeTarget_some {accumulator next_target out : Statistics}
    (h : mergeTarget accumulator next_target = some out) :
    out.failed_poll_count =
        accumulator.failed_poll_count + next_target.failed_poll_count ∧
      out.total_polling_count =
        accumulator.total_polling_count + next_target.total_polling_count := by
  simp only [mergeTarget] at h
  split at h
  · exact Option.noConfusion h
  · injection h with h
    subst h
    exact ⟨rfl, rfl⟩

theorem foldlM_merge_sums (ts : List TargetStats) : ∀ acc out : Statistics,
    List.foldlM mergeTarget acc ts = some out →
    out.failed_poll_count =
        acc.failed_poll_count + (ts.map Statistics.failed_poll_count).sum ∧
      out.total_polling_count =
        acc.total_polling_count + (ts.map Statistics.total_polling_count).sum := by
  induction ts with
  | nil =>
    intro acc out h
    simp only [List.foldlM_nil] at h
    injection h with h
    subst h
    simp
  | cons t rest ih =>
    intro acc out h
    rw [List.foldlM_cons] at h
    cases hm : mergeTarget acc t with
    | none => rw [hm] at h; exact Option.noConfusion h
    | some acc' =>
      rw [hm] at h
      change List.foldlM mergeTarget acc' rest = some out at h
      obtain ⟨h1, h2⟩ := ih acc' out h
      obtain ⟨m1, m2⟩ := mergeTarget_some hm
      constructor
      · rw [h1, m1, List.map_cons, List.sum_cons]; ring
      · rw [h2, m2, List.map_cons, List.sum_cons]; ring

theorem mergeTarget_isSome {acc t : Statistics}
    (hd : acc.total_polling_count + t.total_polling_count
        - (acc.failed_poll_count + t.failed_poll_count)
        + (t.total_polling_count - t.failed_poll_count) ≠ 0) :
    ∃ out, mergeTarget acc t = some out ∧
      out.failed_poll_count = acc.failed_poll_count + t.failed_poll_count ∧
      out.total_polling_count = acc.total_polling_count + t.total_polling_count := by
  simp only [mergeTarget]
  split
  · next h => exact absurd h hd
  · exact ⟨_, rfl, rfl, rfl⟩

theorem foldlM_merge_isSome (ts : List TargetStats) : ∀ acc : Statistics,
    0 ≤ acc.total_polling_count - acc.failed_poll_count →
    (∀ t ∈ ts, 0 < t.total_polling_count - t.failed_poll_count) →
    (List.foldlM mergeTarget acc ts).isSome := by
  induction ts with
  | nil => intro acc _ _; simp
  | cons t rest ih =>
    intro acc hacc hts
    have ht := hts t (List.mem_cons_self t rest)
    have hd : acc.total_polling_count + t.total_polling_count
        - (acc.failed_poll_count + t.failed_poll_count)
        + (t.total_polling_count - t.failed_poll_count) ≠ 0 := by omega
    obtain ⟨out, hm, m1, m2⟩ := mergeTarget_isSome hd
    rw [List.foldlM_cons, hm]
    change (List.foldlM mergeTarget out rest).isSome
    apply ih
    · omega
    · intro u hu
      exact hts u (List.mem_cons_of_mem t hu)

theorem successes_run (l : List Int) : ∀ s : TargetStats,
    (∀ x ∈ l, 0 ≤ x) →
    s.failed_poll_count = 0 →
    0 ≤ s.total_polling_count →
    0 ≤ s.average_response_ms →
    (TargetStats.applyOps s (l.map StatOp.success)).failed_poll_count = 0 ∧
      (TargetStats.applyOps s (l.map StatOp.success)).total_polling_count =
        s.total_polling_count + l.length ∧
      0 ≤ (TargetStats.applyOps s (l.map StatOp.success)).average_response_ms ∧
      (TargetStats.applyOps s (l.map StatOp.success)).average_response_ms *
          (TargetStats.applyOps s (l.map StatOp.success)).total_polling_count ≤
        s.average_response_ms * s.total_polling_count + l.sum := by
  induction l with
  | nil =>
    intro s _ hf ht ha
    refine ⟨hf, by simp [applyOps_nil], ha, ?_⟩
    simp [applyOps_nil]
  | cons x tail ih =>
    intro s hnn hf ht ha
    rw [List.map_cons, applyOps_cons]
    have hx : 0 ≤ x := hnn x (List.mem_cons_self x tail)
    have hf₁ : (TargetStats.applyOp s (StatOp.success x)).failed_poll_count = 0 := by
      show (TargetStats.record_success s x).failed_poll_count = 0
      rw [record_success_failed, hf]
    have ht₁ : (TargetStats.applyOp s (StatOp.success x)).total_polling_count =
        s.total_polling_count + 1 := by
      show (TargetStats.record_success s x).total_polling_count = _
      rw [record_success_total]
    have hnum : 0 ≤ s.average_response_ms * s.total_polling_count + x :=
      add_nonneg (mul_nonneg ha ht) hx
    have havg₁ : (TargetStats.applyOp s (StatOp.success x)).average_response_ms =
        (s.average_response_ms * s.total_polling_count + x).tdiv
          (s.total_polling_count + 1) := by
      show (TargetStats.record_success s x).average_response_ms = _
      rw [record_success_average, hf, sub_zero]
    have ha₁ : 0 ≤ (TargetStats.applyOp s (StatOp.success x)).average_response_ms := by
      rw [havg₁]
      exact Int.tdiv_nonneg hnum (by omega)
    have hb₁ : (TargetStats.applyOp s (StatOp.success x)).average_response_ms *
        (s.total_polling_count + 1) ≤
        s.average_response_ms * s.total_polling_count + x := by
      rw [havg₁, Int.tdiv_eq_ediv hnum (by omega)]
      exact Int.ediv_mul_le _ (by omega)
    obtain ⟨c1, c2, c3, c4⟩ :=
      ih (TargetStats.applyOp s (StatOp.success x))
        (fun y hy => hnn y (List.mem_cons_of_mem x hy)) hf₁ (by omega) ha₁
    refine ⟨c1, ?_, c3, ?_⟩
    · rw [c2, ht₁, List.length_cons]
      push_cast
      ring
    · calc (TargetStats.applyOps (TargetStats.applyOp s (StatOp.success x))
            (tail.map StatOp.success)).average_response_ms *
            (TargetStats.applyOps (TargetStats.applyOp s (StatOp.success x))
              (tail.map StatOp.success)).total_polling_count ≤
          (TargetStats.applyOp s (StatOp.success x)).average_response_ms *
            (TargetStats.applyOp s (StatOp.success x)).total_polling_count +
            tail.sum := c4
        _ ≤ s.average_response_ms * s.total_polling_count + x + tail.sum := by
            rw [ht₁]
            exact add_le_add_right hb₁ _
        _ = s.average_response_ms * s.total_polling_count + (x :: tail).sum := by
            rw [List.sum_cons]
            ring

/-! Claim theorems. -/

/-- Claim C1 (code evaluated at the failing input): starting from a fresh
`TargetStats`, one `record_failure` followed by `record_success(100)` leaves
the state at `(failed 1, total 2, average 50)` — the code divides by the old
`total_polling_count + 1 = 2` — while the claim's formula
`(avg * (total - failed) + latency) / ((total - failed) + 1)` evaluated at the
same pre-state yields `100`. -/
theorem c1_record_success_divides_by_old_total :
    TargetStats.record_success (TargetStats.record_failure Statistics.default) 100 =
        Statistics.mk 1 2 50 ∧
      ((TargetStats.record_failure Statistics.default).average_response_ms *
            ((TargetStats.record_failure Statistics.default).total_polling_count -
              (TargetStats.record_failure Statistics.default).failed_poll_count) +
          100).tdiv
        (((TargetStats.record_failure Statistics.default).total_polling_count -
            (TargetStats.record_failure Statistics.default).failed_poll_count) + 1) =
        100 := by
  decide

/-- Claim C2 (code evaluated at the failing input): point A after successes
100, 200, 300 and one failure reads `(1, 4, 200)` and point B after success 50
reads `(0, 1, 50)` as the claim states, but `get_all_stats` over the two points
returns average `90` when A is iterated first and `100` when B is iterated
first — never the claimed `162` — because the merge step adds the next
target's counts into the accumulator before reading them back as the
"current" success weight. -/
theorem c2_two_point_scenario_eval :
    TargetStats.get_latest_value (TargetStats.applyOps Statistics.default
        [StatOp.success 100, StatOp.success 200, StatOp.success 300, StatOp.failure]) =
        (1, 4, 200) ∧
      TargetStats.get_latest_value
          (TargetStats.applyOps Statistics.default [StatOp.success 50]) = (0, 1, 50) ∧
      ConnectionStats.get_all_stats (ConnectionStats.mk
          [TargetStats.applyOps Statistics.default
              [StatOp.success 100, StatOp.success 200, StatOp.success 300, StatOp.failure],
            TargetStats.applyOps Statistics.default [StatOp.success 50]]) =
        some (Statistics.mk 1 5 90) ∧
      ConnectionStats.get_all_stats (ConnectionStats.mk
          [TargetStats.applyOps Statistics.default [StatOp.success 50],
            TargetStats.applyOps Statistics.default
              [StatOp.success 100, StatOp.success 200, StatOp.success 300, StatOp.failure]]) =
        some (Statistics.mk 1 5 100) := by
  decide

/-- Claim C3, counterexample: a connection holding one freshly registered
`TargetStats` (all counters zero, a reachable state) makes the very first
merge divisor `current_success_count + next_success_count` zero, so
`get_all_stats` hits the `i64` division-by-zero panic (embedded as `none`). -/
theorem c3_zero_divisor_on_fresh_target :
    ConnectionStats.get_all_stats (ConnectionStats.mk [Statistics.default]) = none := by
  decide

/-- Claim C3, amended: `get_all_stats` is not total on all reachable states,
but when every registered `TargetStats` has a strictly positive success count
`total_polling_count - failed_poll_count`, every merge divisor is nonzero and
`get_all_stats` completes. -/
theorem c3_get_all_stats_total_of_pos_success (c : ConnectionStats)
    (h : ∀ t ∈ c.targets, 0 < t.total_polling_count - t.failed_poll_count) :
    (ConnectionStats.get_all_stats c).isSome := by
  exact foldlM_merge_isSome c.targets Statistics.default (by decide) h

/-- Claim C3, witness: a connection with the single target
`(failed 1, total 4, average 200)` satisfies the positivity hypothesis and
`get_all_stats` completes on it. -/
theorem c3_get_all_stats_total_witness :
    (ConnectionStats.get_all_stats (ConnectionStats.mk [Statistics.mk 1 4 200])).isSome :=
  c3_get_all_stats_total_of_pos_success (ConnectionStats.mk [Statistics.mk 1 4 200])
    (by decide)

/-- Claim C4, counterexample: three successes with latencies 1, 0, 2 on a
fresh `TargetStats` leave the average at `0`, while `floor((1+0+2)/3) = 1`;
the permutation 2, 0, 1 leaves it at `1`, so the final value is neither the
floored mean nor independent of call order. -/
theorem c4_truncation_drift_cex :
    (TargetStats.applyOps Statistics.default
          [StatOp.success 1, StatOp.success 0, StatOp.success 2]).average_response_ms = 0 ∧
      ([1, 0, 2] : List Int).sum.tdiv (([1, 0, 2] : List Int).length) = 1 ∧
      (TargetStats.applyOps Statistics.default
          [StatOp.success 2, StatOp.success 0, StatOp.success 1]).average_response_ms = 1 := by
  decide

/-- Claim C4, amended: after `N ≥ 1` successes with nonnegative latencies and
no interleaved failures on a fresh `TargetStats`, the final
`average_response_ms` is at most `floor(sum / N)`; exact equality and
order-independence fail in general because each incremental step truncates. -/
theorem c4_average_le_floor_mean (l : List Int) (hne : l ≠ [])
    (hnn : ∀ x ∈ l, 0 ≤ x) :
    (TargetStats.applyOps Statistics.default (l.map StatOp.success)).average_response_ms ≤
      l.sum.tdiv l.length := by
  obtain ⟨c1, c2, c3, c4⟩ := successes_run l Statistics.default hnn rfl le_rfl le_rfl
  have hlen0 : l.length ≠ 0 := fun hl => hne (List.length_eq_zero.mp hl)
  have hlen : 0 < (l.length : Int) := by omega
  have hsum : 0 ≤ l.sum := List.sum_nonneg hnn
  rw [Int.tdiv_eq_ediv hsum (le_of_lt hlen)]
  apply Int.le_ediv_of_mul_le hlen
  simp [Statistics.default] at c2 c4
  rw [c2] at c4
  exact c4

/-- Claim C4, witness: the latencies 1, 0, 2 are nonnegative and the final
average (0) is at most `floor(3/3) = 1`. -/
theorem c4_average_le_floor_mean_witness :
    (TargetStats.applyOps Statistics.default
        (([1, 0, 2] : List Int).map StatOp.success)).average_response_ms ≤
      ([1, 0, 2] : List Int).sum.tdiv (([1, 0, 2] : List Int).length) :=
  c4_average_le_floor_mean [1, 0, 2] (by decide) (by decide)

/-- Claim C5: after any finite sequence of `record_success`/`record_failure`
calls on a fresh `TargetStats`, `total_polling_count` equals the number of
calls and `failed_poll_count` equals the number of `record_failure` calls. -/
theorem c5_counts_match_call_sequence (ops : List StatOp) :
    (TargetStats.applyOps Statistics.default ops).total_polling_count = ops.length ∧
      (TargetStats.applyOps Statistics.default ops).failed_poll_count =
        (ops.countP StatOp.isFailure : Int) := by
  obtain ⟨h1, h2⟩ := applyOps_counts ops Statistics.default
  constructor
  · rw [h1]; simp [Statistics.default]
  · rw [h2]; simp [Statistics.default]

/-- Claim C6: after any finite sequence of `record_success`, `record_failure`
and `clear` calls on a fresh `TargetStats`, `total_polling_count` equals the
number of `record_success` calls since the last `clear` plus
`failed_poll_count`, and `0 ≤ failed_poll_count ≤ total_polling_count` holds
throughout. -/
theorem c6_total_eq_success_plus_failed (ops : List StatOpC) :
    (TargetStats.applyOpsC Statistics.default ops).total_polling_count =
        (successesSinceClear 0 ops : Int) +
          (TargetStats.applyOpsC Statistics.default ops).failed_poll_count ∧
      0 ≤ (TargetStats.applyOpsC Statistics.default ops).failed_poll_count ∧
      (TargetStats.applyOpsC Statistics.default ops).failed_poll_count ≤
        (TargetStats.applyOpsC Statistics.default ops).total_polling_count := by
  obtain ⟨h1, h2⟩ := applyOpsC_counts ops Statistics.default 0 (by decide) (by decide)
  exact ⟨h1, h2, by omega⟩

/-- Claim C7: whenever `get_all_stats` completes (returns a `Statistics`), its
`failed_poll_count` is the sum of the registered targets' failed counts and
its `total_polling_count` is the sum of their total counts. -/
theorem c7_get_all_stats_sums (c : ConnectionStats) (s : Statistics)
    (h : ConnectionStats.get_all_stats c = some s) :
    s.failed_poll_count = (c.targets.map Statistics.failed_poll_count).sum ∧
      s.total_polling_count = (c.targets.map Statistics.total_polling_count).sum := by
  obtain ⟨h1, h2⟩ := foldlM_merge_sums c.targets Statistics.default s h
  constructor
  · rw [h1]; simp [Statistics.default]
  · rw [h2]; simp [Statistics.default]

/-- Claim C7, witness: on a connection with the single target
`(failed 1, total 4, average 200)`, `get_all_stats` returns
`(failed 1, total 4, average 100)`, whose failed and total counts are the
sums over the targets. -/
theorem c7_get_all_stats_sums_witness :
    (Statistics.mk 1 4 100).failed_poll_count =
        ((ConnectionStats.mk [Statistics.mk 1 4 200]).targets.map
          Statistics.failed_poll_count).sum ∧
      (Statistics.mk 1 4 100).total_polling_count =
        ((ConnectionStats.mk [Statistics.mk 1 4 200]).targets.map
          Statistics.total_polling_count).sum :=
  c7_get_all_stats_sums (ConnectionStats.mk [Statistics.mk 1 4 200])
    (Statistics.mk 1 4 100) (by decide)

/-- Claim C8: `clear()` on any state makes `get_latest_value()` read
`(0, 0, 0)`, and any subsequent sequence of `record_success`/`record_failure`
calls yields exactly the same state as the same sequence applied to a fresh
(`Default`) `TargetStats`. -/
theorem c8_clear_resets_and_acts_fresh (s : TargetStats) :
    TargetStats.get_latest_value (TargetStats.clear s) = (0, 0, 0) ∧
      ∀ ops : List StatOp,
        TargetStats.applyOps (TargetStats.clear s) ops =
          TargetStats.applyOps Statistics.default ops :=
  ⟨rfl, fun _ => rfl⟩

/-- Claim C9: `record_failure()` increments `total_polling_count` and
`failed_poll_count` by one and leaves `average_response_ms` unchanged. -/
theorem c9_record_failure_frame (s : TargetStats) :
    (TargetStats.record_failure s).total_polling_count = s.total_polling_count + 1 ∧
      (TargetStats.record_failure s).failed_poll_count = s.failed_poll_count + 1 ∧
      (TargetStats.record_failure s).average_response_ms = s.average_response_ms :=
  ⟨rfl, rfl, rfl⟩

/-- Claim C10: the default `Connection::preprocess` returns `Ok` of exactly
the request passed in for every request and status, and the default
`Connection::postprocess` returns `Ok` of exactly the response passed in for
every request and response; neither ever returns an error. -/
theorem c10_default_pre_postprocess_identity :
    (∀ (Req Err : Type) (request : Req) (new_status : Option String),
        Connection.preprocess Req Err request new_status = Except.ok request) ∧
      (∀ (Req Res Err : Type) (request : Req) (response : Res),
        Connection.postprocess Req Res Err request response = Except.ok response) :=
  ⟨fun _ _ _ _ => rfl, fun _ _ _ _ _ => rfl⟩
